import Mathlib

/-!
Verification development for the S3Hunter repository.

The definitions below are a shallow embedding of the Python sources:
- `.github/s3_recon_chunked.py` (class `S3ReconChunked`): candidate bucket
  name generation, probing, access classification, per-chunk scheduling,
  and the domain-state escalation step of `run`;
- `.github/merge_results.py`: size-bounded file splitting
  (`split_buckets_by_size`) and URL-based deduplication (`merge_json_files`).

Machine conventions used throughout:
- Python `set` becomes `Finset String`; `list` becomes `List`.
- Python exceptions that the code catches are modelled as explicit outcome
  constructors (`HeadOutcome.err`, `GetOutcome.err`).
- HTTP traffic is modelled by oracle functions passed as parameters
  (`head : String → HeadOutcome`, `get : String → GetOutcome`).
- `str.replace` with single-character patterns is modelled charwise
  (replacement becomes `List.map`, deletion becomes `List.filter`).
-/

namespace S3Hunter

/-- The `AWS_REGIONS` table of s3_recon_chunked.py. -/
def AWS_REGIONS : List String :=
  [("us-east-1"), ("us-east-2"), ("us-west-1"), ("us-west-2"),
   ("ca-central-1"), ("eu-west-1"), ("eu-west-2"), ("eu-west-3"),
   ("eu-central-1"), ("eu-north-1"), ("ap-south-1"), ("ap-northeast-1"),
   ("ap-northeast-2"), ("ap-northeast-3"), ("ap-southeast-1"), ("ap-southeast-2"),
   ("sa-east-1"), ("af-south-1"), ("me-south-1")]

/-- The `SEPARATORS` table of s3_recon_chunked.py. -/
def SEPARATORS : List String := [(""), ("-"), ("_"), (".")]

/-- The `DEFAULT_ENVIRONMENTS` table of s3_recon_chunked.py. -/
def DEFAULT_ENVIRONMENTS : List String :=
  [(""), ("dev"), ("prod"), ("test"), ("staging"), ("stage"), ("qa"), ("uat"),
   ("backup"), ("backups"), ("data"), ("files"), ("assets"),
   ("public"), ("private"), ("internal"), ("external"),
   ("www"), ("api"), ("app"), ("web"), ("mobile"), ("admin")]

/-- The `YEARS` table of s3_recon_chunked.py. -/
def YEARS : List String := [("2020"), ("2021"), ("2022"), ("2023"), ("2024"), ("2025")]

/-- The `SHORT_YEARS` table of s3_recon_chunked.py. -/
def SHORT_YEARS : List String := [("20"), ("21"), ("22"), ("23"), ("24"), ("25")]

/-- The `NUMBERS` table of s3_recon_chunked.py. -/
def NUMBERS : List String := [("1"), ("2"), ("3"), ("01"), ("02"), ("03"), ("v1"), ("v2"), ("v3")]

/-- The `REGIONS_SHORT` table of s3_recon_chunked.py. -/
def REGIONS_SHORT : List String :=
  [("us"), ("eu"), ("asia"), ("ap"), ("ca"), ("uk"), ("au"), ("br"), ("de"), ("fr"), ("jp")]

/-- The `COMMON_SUFFIXES` table of s3_recon_chunked.py. -/
def COMMON_SUFFIXES : List String :=
  [("bucket"), ("storage"), ("store"), ("media"), ("content"), ("static"), ("assets"), ("archive")]

/-- The `COMMON_PREFIXES` table of s3_recon_chunked.py. -/
def COMMON_PREFIXES : List String :=
  [("my"), ("company"), ("project"), ("app"), ("service"), ("cloud")]

/-- Normalization applied per word in `generate_bucket_names`:
`word.lower().replace(' ', '-').replace('*', '').replace('.', '-')`.
Each `str.replace` here has a single-character pattern, so it acts charwise:
replacement is a `map`, deletion of `*` is a `filter`. -/
def normalizeWord (w : String) : String :=
  String.mk ((((w.data.map Char.toLower).map
      (fun c => if c = (' ') then ('-') else c)).filter
      (fun c => c ≠ ('*'))).map
      (fun c => if c = ('.') then ('-') else c))

/-- Level-1 block of `generate_bucket_names` (lines 121-129): for every
environment `env` (skipping empty ones, `if env:`) and every separator,
guarded by `if sep or not env:`, add `word+sep+env` and `env+sep+word`. -/
def envCombos (environments : List String) (word : String) : List String :=
  environments.flatMap fun env =>
    if env = ("") then []
    else SEPARATORS.flatMap fun sep =>
      if sep ≠ ("") ∨ env = ("") then [word ++ sep ++ env, env ++ sep ++ word] else []

/-- Year block of level 2 (`for year in YEARS: for sep in SEPARATORS`). -/
def yearCombos (word : String) : List String :=
  YEARS.flatMap fun year =>
    SEPARATORS.flatMap fun sep => [word ++ sep ++ year, year ++ sep ++ word]

/-- Short-year block of level 2 (`for year in SHORT_YEARS: for sep in ['-', '']`). -/
def shortYearCombos (word : String) : List String :=
  SHORT_YEARS.flatMap fun year =>
    [("-"), ("")].flatMap fun sep => [word ++ sep ++ year, year ++ sep ++ word]

/-- Number block of level 2 (`for num in NUMBERS: for sep in SEPARATORS`);
only the `word+sep+num` order is added. -/
def numberCombos (word : String) : List String :=
  NUMBERS.flatMap fun num =>
    SEPARATORS.map fun sep => word ++ sep ++ num

/-- Region block of level 2 (`for region in REGIONS_SHORT: for sep in ['-', '_', '']`). -/
def regionCombos (word : String) : List String :=
  REGIONS_SHORT.flatMap fun region =>
    [("-"), ("_"), ("")].flatMap fun sep => [word ++ sep ++ region, region ++ sep ++ word]

/-- Suffix block of level 3 (`for suffix in COMMON_SUFFIXES: for sep in ['-', '_', '']`). -/
def suffixCombos (word : String) : List String :=
  COMMON_SUFFIXES.flatMap fun suf =>
    [("-"), ("_"), ("")].map fun sep => word ++ sep ++ suf

/-- Prefix block of level 3 (`for prefix in COMMON_PREFIXES: for sep in ['-', '_', '']`). -/
def prefixCombos (word : String) : List String :=
  COMMON_PREFIXES.flatMap fun pre =>
    [("-"), ("_"), ("")].map fun sep => pre ++ sep ++ word

/-- Environment+year block of level 3. -/
def envYearCombos (word : String) : List String :=
  [("dev"), ("prod"), ("test"), ("staging")].flatMap fun env =>
    [("2023"), ("2024"), ("2025")].flatMap fun year =>
      [("-"), ("_")].flatMap fun sep =>
        [word ++ sep ++ env ++ sep ++ year, word ++ sep ++ year ++ sep ++ env]

/-- Environment+region block of level 3. -/
def envRegionCombos (word : String) : List String :=
  [("dev"), ("prod"), ("staging"), ("test")].flatMap fun env =>
    [("us"), ("eu"), ("ap")].flatMap fun region =>
      [("-"), ("_")].flatMap fun sep =>
        [word ++ sep ++ env ++ sep ++ region, word ++ sep ++ region ++ sep ++ env]

/-- All names added at level ≥ 2 for one normalized word. -/
def level2Combos (word : String) : List String :=
  yearCombos word ++ shortYearCombos word ++ numberCombos word ++ regionCombos word

/-- All names added at level ≥ 3 for one normalized word. -/
def level3Combos (word : String) : List String :=
  suffixCombos word ++ prefixCombos word ++ envYearCombos word ++ envRegionCombos word

/-- All names `generate_bucket_names` adds for one already-normalized word:
the base word always; at level 0 the `continue` skips everything else;
the environment block runs for every level ≥ 1; the level-2 and level-3
blocks are guarded by `if self.permutation_level >= 2` / `>= 3`. -/
def namesForWord (environments : List String) (permutation_level : Nat) (word : String) :
    List String :=
  word :: (if permutation_level = 0 then []
    else envCombos environments word
      ++ (if 2 ≤ permutation_level then level2Combos word else [])
      ++ (if 3 ≤ permutation_level then level3Combos word else []))

/-- `S3ReconChunked.generate_bucket_names(words)`: accumulates, across the
input words, the set of candidate names; a word that is empty after
normalization is skipped (`if not word: continue`). -/
def generate_bucket_names (environments : List String) (permutation_level : Nat)
    (words : List String) : Finset String :=
  words.foldl (fun buckets w =>
    let word := normalizeWord w
    if word = ("") then buckets
    else buckets ∪ (namesForWord environments permutation_level word).toFinset) ∅

/-- Outcome of the HEAD request issued in `check_bucket`: `err` stands for a
raised-and-caught `requests.exceptions.Timeout` or `RequestException`
(both branches `continue` to the next URL), `ok` carries the status code. -/
inductive HeadOutcome where
  | err : HeadOutcome
  | ok (status : Nat) : HeadOutcome
deriving DecidableEq

/-- Outcome of the GET request issued in `determine_access`: `err` stands for
a raised-and-caught `requests.exceptions.RequestException`, `ok` carries the
status code and the response body text. -/
inductive GetOutcome where
  | err : GetOutcome
  | ok (status : Nat) (body : String) : GetOutcome
deriving DecidableEq

/-- Python substring test `needle in text`. -/
def containsSub (needle text : String) : Bool :=
  decide (needle.data <:+: text.data)

/-- `S3ReconChunked.determine_access(url)` (lines 263-279), with the GET
request modelled by the oracle `get`. -/
def determine_access (get : String → GetOutcome) (url : String) : String :=
  match get url with
  | GetOutcome.err => ("private")
  | GetOutcome.ok status body =>
    if status = 200 then
      if containsSub ("<?xml") body || containsSub ("ListBucketResult") body then ("public")
      else ("accessible")
    else if status = 403 then ("private")
    else if status = 301 ∨ status = 302 ∨ status = 307 then ("exists")
    else ("unknown")

/-- The record built by `check_bucket` on a qualifying HEAD status. -/
structure ProbeResult where
  url : String
  bucket : String
  region : String
  status : Nat
  access : String
  timestamp : String
deriving DecidableEq

/-- The two candidate URL shapes of `check_bucket` (lines 226-229):
virtual-hosted style, then path style. -/
def bucketUrls (bucket_name region : String) : List String :=
  [("https://") ++ bucket_name ++ (".s3.") ++ region ++ (".amazonaws.com"),
   ("https://s3.") ++ region ++ (".amazonaws.com/") ++ bucket_name]

/-- The `for url in urls:` loop body of `check_bucket`: a HEAD exception
continues with the next URL; a status in {200, 301, 302, 307} returns a
`ProbeResult` whose access field comes from `determine_access`; any other
status falls through to the next URL; an exhausted list returns `None`. -/
def check_bucket_loop (head : String → HeadOutcome) (get : String → GetOutcome)
    (now bucket_name region : String) : List String → Option ProbeResult
  | [] => none
  | url :: rest =>
    match head url with
    | HeadOutcome.err => check_bucket_loop head get now bucket_name region rest
    | HeadOutcome.ok status =>
      if status = 200 ∨ status = 301 ∨ status = 302 ∨ status = 307 then
        some { url := url, bucket := bucket_name, region := region, status := status,
               access := determine_access get url, timestamp := now }
      else check_bucket_loop head get now bucket_name region rest

/-- `S3ReconChunked.check_bucket(bucket_name, region)` (lines 225-261), with
HTTP modelled by the `head` and `get` oracles and `datetime.now()` by `now`. -/
def check_bucket (head : String → HeadOutcome) (get : String → GetOutcome)
    (now bucket_name region : String) : Option ProbeResult :=
  check_bucket_loop head get now bucket_name region (bucketUrls bucket_name region)

/-- Spec-side classification, written from the claim's words (C5): public if
status 200 and the body contains an XML/listing marker; accessible if 200
without the marker; private if 403; exists if the status is one of 301, 302,
307; unknown for any other status; private on a network exception. To be
compared with `determine_access`, which is translated from the code. -/
def determine_access_claim (get : String → GetOutcome) (url : String) : String :=
  match get url with
  | GetOutcome.err => ("private")
  | GetOutcome.ok status body =>
    if status = 200 ∧ (containsSub ("<?xml") body || containsSub ("ListBucketResult") body) then
      ("public")
    else if status = 200 then ("accessible")
    else if status = 403 then ("private")
    else if status ∈ [301, 302, 307] then ("exists")
    else ("unknown")

/-- ASCII uppercase letter test (code points of A to Z). -/
def isAsciiUpper (c : Char) : Prop := 65 ≤ c.toNat ∧ c.toNat ≤ 90

instance (c : Char) : Decidable (isAsciiUpper c) := by
  unfold isAsciiUpper
  infer_instance

/-- A candidate name with no space, no `*`, and no ASCII uppercase letter. -/
def goodName (s : String) : Prop :=
  ∀ c ∈ s.data, c ≠ (' ') ∧ c ≠ ('*') ∧ ¬isAsciiUpper c

instance (s : String) : Decidable (goodName s) := by
  unfold goodName
  infer_instance

/-- Result-recording step of `scan_bucket` (lines 301-314): a found result
with access `public` or `accessible` is appended to `results['public']`;
otherwise, when `public_only` is off, it is appended to `results['private']`;
a `None` result appends nothing. The state is the pair
(`results['public']`, `results['private']`). -/
def record_result (public_only : Bool) (results : List ProbeResult × List ProbeResult)
    (result : Option ProbeResult) : List ProbeResult × List ProbeResult :=
  match result with
  | none => results
  | some r =>
    if r.access = ("public") ∨ r.access = ("accessible") then
      (results.1 ++ [r], results.2)
    else if public_only = false then
      (results.1, results.2 ++ [r])
    else results

/-- The `results` lists accumulated over one chunk, folding
`record_result` over the probe outcomes in completion order. -/
def chunk_results (public_only : Bool) (outcomes : List (Option ProbeResult)) :
    List ProbeResult × List ProbeResult :=
  outcomes.foldl (record_result public_only) ([], [])

/-- A sample probe result (access `private`) used in concrete checks. -/
def samplePrivateResult : ProbeResult :=
  { url := ("u"), bucket := ("b"), region := ("r"), status := 403,
    access := ("private"), timestamp := ("t") }

/-- The probe targets dispatched by `run_chunk` (line 354):
`itertools.product(bucket_names, AWS_REGIONS)`. -/
def run_chunk_combinations (bucket_names : List String) : List (String × String) :=
  bucket_names ×ˢ AWS_REGIONS

/-- The parsed `domain_state.json` contents used by `run`:
`scanned_domains` plus the two optional escalation-bookkeeping fields. -/
structure DomainStateFile where
  scanned_domains : List String
  permutation_level_completed : Option Nat
  additional_rounds : Option Nat
deriving DecidableEq

/-- What a run decides to do after loading state: scan `remaining` words at
`permutation_level` with the (possibly updated) state file contents, or
return with no further work. -/
inductive RunPlan where
  | work (remaining : List String) (permutation_level : Nat) (state : DomainStateFile) : RunPlan
  | finished : RunPlan
deriving DecidableEq

/-- The escalation step of `S3ReconChunked.run` (lines 413-447), as a pure
function of the loaded state: filter out words whose hash is in
`scanned_domains`; if none remain and the level is below 3, bump the level by
one, record `permutation_level_completed = original_level` and
`additional_rounds = state.get('additional_rounds', 0) + 1` in the state
file, and treat all words as pending; if none remain at level 3, return.
The MD5 `get_domain_hash` is the uninterpreted parameter `h`. -/
def plan_after_load (h : String → String) (all_words : List String)
    (permutation_level : Nat) (state : DomainStateFile) : RunPlan :=
  let remaining_domains := all_words.filter (fun w => h w ∉ state.scanned_domains)
  if remaining_domains.isEmpty then
    if permutation_level < 3 then
      RunPlan.work all_words (permutation_level + 1)
        { state with
          permutation_level_completed := some permutation_level,
          additional_rounds := some (state.additional_rounds.getD 0 + 1) }
    else RunPlan.finished
  else RunPlan.work remaining_domains permutation_level state

/-- A bucket record as handled by merge_results.py: a JSON object with
string-valued fields, modelled as an association list. -/
def RecordDict : Type := List (String × String)

instance : DecidableEq RecordDict := by
  unfold RecordDict
  infer_instance

/-- Python `d.get(key, default)` on a `RecordDict`. -/
def dictGet (d : RecordDict) (key default_ : String) : String :=
  match d.find? (fun kv => kv.1 = key) with
  | some kv => kv.2
  | none => default_

/-- JSON string literal (for field names and values without escapes,
which is the only form the concrete theorems below evaluate). -/
def jsonQuote (s : String) : String := ("\"") ++ s ++ ("\"")

/-- The indentation prefix `json.dumps(..., indent=2)` puts at nesting
level `lv`. -/
def jsonIndent (lv : Nat) : String := String.mk (List.replicate (2 * lv) (' '))

/-- `json.dumps` rendering of one bucket record at nesting level `lv`. -/
def dumpRecord (lv : Nat) (b : RecordDict) : String :=
  if b = [] then ("\x7b\x7d")
  else ("\x7b\n") ++
    String.intercalate (",\n")
      (b.map fun kv => jsonIndent (lv + 1) ++ jsonQuote kv.1 ++ (": ") ++ jsonQuote kv.2) ++
    ("\n") ++ jsonIndent lv ++ ("\x7d")

/-- `json.dumps` rendering of a list of bucket records at nesting level `lv`. -/
def dumpRecordList (lv : Nat) (bs : List RecordDict) : String :=
  if bs = [] then ("[]")
  else ("[\n") ++
    String.intercalate (",\n")
      (bs.map fun b => jsonIndent (lv + 1) ++ dumpRecord (lv + 1) b) ++
    ("\n") ++ jsonIndent lv ++ ("]")

/-- The in-progress file structure of `split_buckets_by_size`:
`{"buckets": {"public": [...], "private": [...]}}`. The Lean field for the
source key `"private"` is `privateB` (`private` is a Lean keyword). -/
structure FileData where
  publicB : List RecordDict
  privateB : List RecordDict
deriving DecidableEq

/-- `json.dumps(current_file_data, indent=2)` for the fixed two-key shape
built by `split_buckets_by_size` (checked against CPython's output). -/
def dumpFileData (fd : FileData) : String :=
  ("\x7b\n  \"buckets\": \x7b\n    \"public\": ") ++ dumpRecordList 2 fd.publicB ++
  (",\n    \"private\": ") ++ dumpRecordList 2 fd.privateB ++ ("\n  \x7d\n\x7d")

/-- `estimate_json_size(data)` of merge_results.py (line 76-78):
`len(json.dumps(data, indent=2).encode('utf-8'))`. -/
def estimate_json_size (fd : FileData) : Nat :=
  (dumpFileData fd).utf8ByteSize

/-- The truthiness test
`if current_file_data["buckets"]["public"] or current_file_data["buckets"]["private"]`. -/
def fileNonempty (fd : FileData) : Bool :=
  !fd.publicB.isEmpty || !fd.privateB.isEmpty

/-- The fresh `current_file_data` structure. -/
def emptyFileData : FileData := { publicB := [], privateB := [] }

/-- The loop state of `split_buckets_by_size`: the emitted `files_data`,
the growing `current_file_data`, and `bucket_count`. -/
structure SplitAcc where
  files_data : List FileData
  current : FileData
  bucket_count : Nat
deriving DecidableEq

/-- The periodic size check of `split_buckets_by_size`: if the estimated
size exceeds 95% of the cap, flush `current_file_data` (when non-empty) and
start a new file. Python compares `current_size > max_size * 0.95` in
floating point; this is modelled exactly as `20 * size > 19 * max_size`,
which agrees with the float comparison at the sizes the theorems below
evaluate (at `max_size = 100` CPython's threshold is exactly `95.0`). -/
def rotate_check (max_size : Nat) (acc : SplitAcc) : SplitAcc :=
  let current_size := estimate_json_size acc.current
  if 20 * current_size > 19 * max_size then
    { files_data :=
        if fileNonempty acc.current then acc.files_data ++ [acc.current] else acc.files_data,
      current := emptyFileData,
      bucket_count := acc.bucket_count }
  else acc

/-- One iteration of the `for bucket in public_buckets:` loop of
`split_buckets_by_size` (lines 102-122). -/
def add_public_bucket (check_interval max_size : Nat) (acc : SplitAcc) (bucket : RecordDict) :
    SplitAcc :=
  let acc' : SplitAcc :=
    { acc with
      current := { acc.current with publicB := acc.current.publicB ++ [bucket] },
      bucket_count := acc.bucket_count + 1 }
  if acc'.bucket_count % check_interval = 0 then rotate_check max_size acc' else acc'

/-- One iteration of the `for bucket in private_buckets:` loop of
`split_buckets_by_size` (lines 126-146). -/
def add_private_bucket (check_interval max_size : Nat) (acc : SplitAcc) (bucket : RecordDict) :
    SplitAcc :=
  let acc' : SplitAcc :=
    { acc with
      current := { acc.current with privateB := acc.current.privateB ++ [bucket] },
      bucket_count := acc.bucket_count + 1 }
  if acc'.bucket_count % check_interval = 0 then rotate_check max_size acc' else acc'

/-- `split_buckets_by_size(public_buckets, private_buckets, max_size)` of
merge_results.py (lines 81-152): `check_interval = max(1, max_size //
(AVERAGE_BUCKET_SIZE_BYTES * SIZE_CHECK_FREQUENCY))` with 250 * 100; the
public loop, then the private loop with `bucket_count` reset to 0, then a
final flush of a non-empty `current_file_data`. -/
def split_buckets_by_size (public_buckets private_buckets : List RecordDict)
    (max_size : Nat) : List FileData :=
  let check_interval := max 1 (max_size / (250 * 100))
  let acc0 : SplitAcc := { files_data := [], current := emptyFileData, bucket_count := 0 }
  let acc1 := public_buckets.foldl (add_public_bucket check_interval max_size) acc0
  let acc2 := private_buckets.foldl (add_private_bucket check_interval max_size)
    { acc1 with bucket_count := 0 }
  if fileNonempty acc2.current then acc2.files_data ++ [acc2.current] else acc2.files_data

/-- All public entries of a split state, in order: entries already flushed
into `files_data`, then the in-progress `current_file_data`. -/
def pubEntries (acc : SplitAcc) : List RecordDict :=
  (acc.files_data.map FileData.publicB).flatten ++ acc.current.publicB

/-- All private entries of a split state, in order. -/
def privEntries (acc : SplitAcc) : List RecordDict :=
  (acc.files_data.map FileData.privateB).flatten ++ acc.current.privateB

/-- Python-dict insertion `unique[url] = bucket` on an association list:
update the value in place if the key is present, append otherwise. -/
def dict_insert (m : List (String × RecordDict)) (k : String) (v : RecordDict) :
    List (String × RecordDict) :=
  match m with
  | [] => [(k, v)]
  | kv :: rest => if kv.1 = k then (k, v) :: rest else kv :: dict_insert rest k v

/-- The deduplication loop of `merge_json_files` (lines 227-237), for one
pool: `url = bucket.get('url', ''); if url: unique[url] = bucket`. -/
def unique_by_url (buckets : List RecordDict) : List (String × RecordDict) :=
  buckets.foldl (fun unique bucket =>
    let url := dictGet bucket ("url") ("")
    if url ≠ ("") then dict_insert unique url bucket else unique) []

/-- The merge stage's two deduplication pools (lines 222-237): the public
pool over `existing_public + new_public` and the private pool over
`existing_private + new_private`, each deduplicated independently. -/
def merge_dedupe (existing_public new_public existing_private new_private :
    List RecordDict) : List (String × RecordDict) × List (String × RecordDict) :=
  (unique_by_url (existing_public ++ new_public),
   unique_by_url (existing_private ++ new_private))

/-! ### Basic string and list lemmas -/

theorem data_mk (l : List Char) : (String.mk l).data = l := rfl

theorem count_append_str (c : Char) (a b : String) :
    (a ++ b).data.count c = a.data.count c + b.data.count c := by
  rw [String.data_append, List.count_append]

/-! ### Membership structure of the name generator -/

theorem mem_namesForWord_iff (envs : List String) (lvl : Nat) (w x : String) :
    x ∈ namesForWord envs lvl w ↔
      x = w ∨ (lvl ≠ 0 ∧ (x ∈ envCombos envs w ∨
        (2 ≤ lvl ∧ x ∈ level2Combos w) ∨ (3 ≤ lvl ∧ x ∈ level3Combos w))) := by
  unfold namesForWord
  by_cases h0 : lvl = 0
  · simp [h0]
  · by_cases h2 : 2 ≤ lvl
    · by_cases h3 : 3 ≤ lvl
      · simp [h0, h2, h3, List.mem_append, or_assoc]
      · simp [h0, h2, h3, List.mem_append, or_assoc]
    · have h3 : ¬ 3 ≤ lvl := by omega
      simp [h0, h2, h3, List.mem_append]

theorem mem_generate_aux (envs : List String) (lvl : Nat) :
    ∀ (words : List String) (init : Finset String) (x : String),
      x ∈ words.foldl (fun buckets w =>
          let word := normalizeWord w
          if word = ("") then buckets
          else buckets ∪ (namesForWord envs lvl word).toFinset) init ↔
        x ∈ init ∨ ∃ w ∈ words, normalizeWord w ≠ ("") ∧
          x ∈ namesForWord envs lvl (normalizeWord w) := by
  intro words
  induction words with
  | nil => intro init x; simp
  | cons w t ih =>
    intro init x
    rw [List.foldl_cons, ih]
    by_cases h : normalizeWord w = ("")
    · simp [h]
    · simp [h, Finset.mem_union, List.mem_toFinset, or_assoc]

theorem mem_generate (envs : List String) (lvl : Nat) (words : List String) (x : String) :
    x ∈ generate_bucket_names envs lvl words ↔
      ∃ w ∈ words, normalizeWord w ≠ ("") ∧
        x ∈ namesForWord envs lvl (normalizeWord w) := by
  unfold generate_bucket_names
  rw [mem_generate_aux]
  simp

theorem mem_generate_singleton (envs : List String) (lvl : Nat) (w x : String) :
    x ∈ generate_bucket_names envs lvl [w] ↔
      normalizeWord w ≠ ("") ∧ x ∈ namesForWord envs lvl (normalizeWord w) := by
  rw [mem_generate]
  simp

theorem of_mem_envCombos {envs : List String} {w x : String} (hx : x ∈ envCombos envs w) :
    ∃ env ∈ envs, env ≠ ("") ∧ ∃ sep ∈ SEPARATORS, sep ≠ ("") ∧
      (x = w ++ sep ++ env ∨ x = env ++ sep ++ w) := by
  unfold envCombos at hx
  rw [List.mem_flatMap] at hx
  obtain ⟨env, hmem, hx⟩ := hx
  by_cases he : env = ("")
  · rw [if_pos he] at hx
    cases hx
  · rw [if_neg he] at hx
    rw [List.mem_flatMap] at hx
    obtain ⟨sep, hs, hx⟩ := hx
    by_cases hc : sep ≠ ("") ∨ env = ("")
    · rw [if_pos hc] at hx
      have hsep : sep ≠ ("") := by tauto
      simp only [List.mem_cons, List.not_mem_nil, or_false] at hx
      exact ⟨env, hmem, he, sep, hs, hsep, hx⟩
    · rw [if_neg hc] at hx
      cases hx

theorem of_mem_twoSided {tags seps : List String} {w x : String}
    (hx : x ∈ tags.flatMap fun t => seps.flatMap fun s => [w ++ s ++ t, t ++ s ++ w]) :
    ∃ t ∈ tags, ∃ s ∈ seps, x = w ++ s ++ t ∨ x = t ++ s ++ w := by
  rw [List.mem_flatMap] at hx
  obtain ⟨t, ht, hx⟩ := hx
  rw [List.mem_flatMap] at hx
  obtain ⟨s, hs, hx⟩ := hx
  simp only [List.mem_cons, List.not_mem_nil, or_false] at hx
  exact ⟨t, ht, s, hs, hx⟩

theorem of_mem_oneSided {tags seps : List String} {w x : String}
    (hx : x ∈ tags.flatMap fun t => seps.map fun s => w ++ s ++ t) :
    ∃ t ∈ tags, ∃ s ∈ seps, x = w ++ s ++ t := by
  rw [List.mem_flatMap] at hx
  obtain ⟨t, ht, hx⟩ := hx
  rw [List.mem_map] at hx
  obtain ⟨s, hs, hx⟩ := hx
  exact ⟨t, ht, s, hs, hx.symm⟩

theorem of_mem_prefixCombos {w x : String} (hx : x ∈ prefixCombos w) :
    ∃ t ∈ COMMON_PREFIXES, ∃ s ∈ [("-"), ("_"), ("")], x = t ++ s ++ w := by
  unfold prefixCombos at hx
  rw [List.mem_flatMap] at hx
  obtain ⟨t, ht, hx⟩ := hx
  rw [List.mem_map] at hx
  obtain ⟨s, hs, hx⟩ := hx
  exact ⟨t, ht, s, hs, hx.symm⟩

theorem of_mem_pairCombos {envtags yeartags septags : List String} {w x : String}
    (hx : x ∈ envtags.flatMap fun env => yeartags.flatMap fun year =>
      septags.flatMap fun sep =>
        [w ++ sep ++ env ++ sep ++ year, w ++ sep ++ year ++ sep ++ env]) :
    ∃ env ∈ envtags, ∃ year ∈ yeartags, ∃ sep ∈ septags,
      x = w ++ sep ++ env ++ sep ++ year ∨ x = w ++ sep ++ year ++ sep ++ env := by
  rw [List.mem_flatMap] at hx
  obtain ⟨env, he, hx⟩ := hx
  rw [List.mem_flatMap] at hx
  obtain ⟨year, hy, hx⟩ := hx
  rw [List.mem_flatMap] at hx
  obtain ⟨sep, hs, hx⟩ := hx
  simp only [List.mem_cons, List.not_mem_nil, or_false] at hx
  exact ⟨env, he, year, hy, sep, hs, hx⟩

/-! ### Monotonicity across permutation levels -/

theorem namesForWord_mono (envs : List String) (w : String) {L1 L2 : Nat} (hle : L1 ≤ L2)
    {x : String} (hx : x ∈ namesForWord envs L1 w) : x ∈ namesForWord envs L2 w := by
  rw [mem_namesForWord_iff] at hx ⊢
  rcases hx with rfl | ⟨h0, hx⟩
  · exact Or.inl rfl
  refine Or.inr ⟨by omega, ?_⟩
  rcases hx with hx | ⟨h2, hx⟩ | ⟨h3, hx⟩
  · exact Or.inl hx
  · exact Or.inr (Or.inl ⟨by omega, hx⟩)
  · exact Or.inr (Or.inr ⟨by omega, hx⟩)

theorem generate_mono (envs : List String) {L1 L2 : Nat} (hle : L1 ≤ L2) (words : List String) :
    generate_bucket_names envs L1 words ⊆ generate_bucket_names envs L2 words := by
  intro x hx
  rw [mem_generate] at hx ⊢
  obtain ⟨w, hw, hne, hx⟩ := hx
  exact ⟨w, hw, hne, namesForWord_mono envs _ hle hx⟩

/-! ### Character-count bounds used to separate the levels -/

theorem count_two_namesForWord_level1 {w x : String}
    (hx : x ∈ namesForWord DEFAULT_ENVIRONMENTS 1 w) :
    x.data.count ('2') ≤ w.data.count ('2') + 1 := by
  rw [mem_namesForWord_iff] at hx
  rcases hx with rfl | ⟨-, hx | ⟨h2, -⟩ | ⟨h3, -⟩⟩
  · omega
  · obtain ⟨env, he, -, sep, hs, -, rfl | rfl⟩ := of_mem_envCombos hx <;>
      rw [count_append_str, count_append_str] <;>
      · have hall : ∀ e ∈ DEFAULT_ENVIRONMENTS, e.data.count ('2') = 0 := by decide
        have hsall : ∀ s ∈ SEPARATORS, s.data.count ('2') = 0 := by decide
        have henv := hall env he
        have hsep := hsall sep hs
        omega
  · omega
  · omega

theorem count_dash_namesForWord_level2 {w x : String}
    (hx : x ∈ namesForWord DEFAULT_ENVIRONMENTS 2 w) :
    x.data.count ('-') ≤ w.data.count ('-') + 1 := by
  rw [mem_namesForWord_iff] at hx
  rcases hx with rfl | ⟨-, hx | ⟨-, hx⟩ | ⟨h3, -⟩⟩
  · omega
  · obtain ⟨env, he, -, sep, hs, -, rfl | rfl⟩ := of_mem_envCombos hx <;>
      rw [count_append_str, count_append_str] <;>
      · have hall : ∀ e ∈ DEFAULT_ENVIRONMENTS, e.data.count ('-') = 0 := by decide
        have hsall : ∀ s ∈ SEPARATORS, s.data.count ('-') ≤ 1 := by decide
        have henv := hall env he
        have hsep := hsall sep hs
        omega
  · unfold level2Combos at hx
    rw [List.mem_append, List.mem_append, List.mem_append] at hx
    rcases hx with ((hx | hx) | hx) | hx
    · obtain ⟨t, ht, s, hs, rfl | rfl⟩ := of_mem_twoSided (by unfold yearCombos at hx; exact hx) <;>
        rw [count_append_str, count_append_str] <;>
        · have hall : ∀ t ∈ YEARS, t.data.count ('-') = 0 := by decide
          have hsall : ∀ s ∈ SEPARATORS, s.data.count ('-') ≤ 1 := by decide
          have htag := hall t ht
          have hsep := hsall s hs
          omega
    · obtain ⟨t, ht, s, hs, rfl | rfl⟩ :=
        of_mem_twoSided (by unfold shortYearCombos at hx; exact hx) <;>
        rw [count_append_str, count_append_str] <;>
        · have hall : ∀ t ∈ SHORT_YEARS, t.data.count ('-') = 0 := by decide
          have hsall : ∀ s ∈ [("-"), ("")], s.data.count ('-') ≤ 1 := by decide
          have htag := hall t ht
          have hsep := hsall s hs
          omega
    · obtain ⟨t, ht, s, hs, rfl⟩ := of_mem_oneSided (by unfold numberCombos at hx; exact hx)
      rw [count_append_str, count_append_str]
      have hall : ∀ t ∈ NUMBERS, t.data.count ('-') = 0 := by decide
      have hsall : ∀ s ∈ SEPARATORS, s.data.count ('-') ≤ 1 := by decide
      have htag := hall t ht
      have hsep := hsall s hs
      omega
    · obtain ⟨t, ht, s, hs, rfl | rfl⟩ :=
        of_mem_twoSided (by unfold regionCombos at hx; exact hx) <;>
        rw [count_append_str, count_append_str] <;>
        · have hall : ∀ t ∈ REGIONS_SHORT, t.data.count ('-') = 0 := by decide
          have hsall : ∀ s ∈ [("-"), ("_"), ("")], s.data.count ('-') ≤ 1 := by decide
          have htag := hall t ht
          have hsep := hsall s hs
          omega
  · omega

/-! ### Concrete members that appear at one level and not below -/

theorem dev_mem_namesForWord {lvl : Nat} (h1 : 1 ≤ lvl) (w : String) :
    w ++ ("-dev") ∈ namesForWord DEFAULT_ENVIRONMENTS lvl w := by
  rw [mem_namesForWord_iff]
  refine Or.inr ⟨by omega, Or.inl ?_⟩
  unfold envCombos
  rw [List.mem_flatMap]
  refine ⟨("dev"), by decide, ?_⟩
  rw [if_neg (by decide)]
  rw [List.mem_flatMap]
  refine ⟨("-"), by decide, ?_⟩
  rw [if_pos (Or.inl (by decide))]
  have hlit : (("-") : String) ++ ("dev") = ("-dev") := by rfl
  have hEq : w ++ ("-") ++ ("dev") = w ++ ("-dev") := by
    rw [String.append_assoc, hlit]
  rw [← hEq]
  exact List.mem_cons_self _ _

theorem year2020_mem_namesForWord {lvl : Nat} (h2 : 2 ≤ lvl) (w : String) :
    w ++ ("2020") ∈ namesForWord DEFAULT_ENVIRONMENTS lvl w := by
  rw [mem_namesForWord_iff]
  refine Or.inr ⟨by omega, Or.inr (Or.inl ⟨h2, ?_⟩)⟩
  unfold level2Combos
  rw [List.mem_append, List.mem_append, List.mem_append]
  refine Or.inl (Or.inl (Or.inl ?_))
  unfold yearCombos
  rw [List.mem_flatMap]
  refine ⟨("2020"), by decide, ?_⟩
  rw [List.mem_flatMap]
  refine ⟨(""), by decide, ?_⟩
  have hlit : (("") : String) ++ ("2020") = ("2020") := by rfl
  have hEq : w ++ ("") ++ ("2020") = w ++ ("2020") := by
    rw [String.append_assoc, hlit]
  rw [← hEq]
  exact List.mem_cons_self _ _

theorem devYear_mem_namesForWord {lvl : Nat} (h3 : 3 ≤ lvl) (w : String) :
    w ++ ("-dev-2023") ∈ namesForWord DEFAULT_ENVIRONMENTS lvl w := by
  rw [mem_namesForWord_iff]
  refine Or.inr ⟨by omega, Or.inr (Or.inr ⟨h3, ?_⟩)⟩
  unfold level3Combos
  rw [List.mem_append, List.mem_append, List.mem_append]
  refine Or.inl (Or.inr ?_)
  unfold envYearCombos
  rw [List.mem_flatMap]
  refine ⟨("dev"), by decide, ?_⟩
  rw [List.mem_flatMap]
  refine ⟨("2023"), by decide, ?_⟩
  rw [List.mem_flatMap]
  refine ⟨("-"), by decide, ?_⟩
  have hlit : (("-") : String) ++ (("dev") ++ (("-") ++ ("2023"))) = ("-dev-2023") := by rfl
  have hEq : w ++ ("-") ++ ("dev") ++ ("-") ++ ("2023") = w ++ ("-dev-2023") := by
    rw [String.append_assoc, String.append_assoc, String.append_assoc, hlit]
  rw [← hEq]
  exact List.mem_cons_self _ _

/-! ### Character goodness of generated names (default environments) -/

theorem toLower_not_upper (c : Char) : ¬ isAsciiUpper (Char.toLower c) := by
  unfold isAsciiUpper Char.toLower
  by_cases h : c.toNat ≥ 65 ∧ c.toNat ≤ 90
  · rw [if_pos h]
    obtain ⟨h1, h2⟩ := h
    set n := c.toNat with hn
    clear hn
    interval_cases n <;> decide
  · rw [if_neg h]
    omega

theorem goodName_append {a b : String} (ha : goodName a) (hb : goodName b) :
    goodName (a ++ b) := by
  intro c hc
  rw [String.data_append, List.mem_append] at hc
  rcases hc with hc | hc
  · exact ha c hc
  · exact hb c hc

theorem goodName_normalize (w : String) : goodName (normalizeWord w) := by
  intro c hc
  unfold normalizeWord at hc
  rw [data_mk] at hc
  rw [List.mem_map] at hc
  obtain ⟨d, hd, hcd⟩ := hc
  rw [List.mem_filter] at hd
  obtain ⟨hd', hdstar⟩ := hd
  rw [List.mem_map] at hd'
  obtain ⟨e, he, hde⟩ := hd'
  rw [List.mem_map] at he
  obtain ⟨f, hf, hef⟩ := he
  have hdgood : d ≠ (' ') ∧ d ≠ ('*') ∧ ¬ isAsciiUpper d := by
    refine ⟨?_, by simpa using hdstar, ?_⟩
    · subst hde
      by_cases hsp : e = (' ')
      · rw [if_pos hsp]
        decide
      · rw [if_neg hsp]
        exact hsp
    · subst hde
      by_cases hsp : e = (' ')
      · rw [if_pos hsp]
        decide
      · rw [if_neg hsp]
        subst hef
        exact toLower_not_upper f
  subst hcd
  by_cases hdot : d = ('.')
  · rw [if_pos hdot]
    refine ⟨by decide, by decide, by decide⟩
  · rw [if_neg hdot]
    exact hdgood

theorem goodName_namesForWord {envs : List String} {lvl : Nat} {w x : String}
    (hw : goodName w) (henv : ∀ e ∈ envs, goodName e)
    (hx : x ∈ namesForWord envs lvl w) : goodName x := by
  have hsepgood : ∀ s ∈ SEPARATORS, goodName s := by decide
  rw [mem_namesForWord_iff] at hx
  rcases hx with rfl | ⟨-, hx | ⟨-, hx⟩ | ⟨-, hx⟩⟩
  · exact hw
  · obtain ⟨env, he, -, sep, hs, -, rfl | rfl⟩ := of_mem_envCombos hx
    · exact goodName_append (goodName_append hw (hsepgood sep hs)) (henv env he)
    · exact goodName_append (goodName_append (henv env he) (hsepgood sep hs)) hw
  · unfold level2Combos at hx
    rw [List.mem_append, List.mem_append, List.mem_append] at hx
    rcases hx with ((hx | hx) | hx) | hx
    · obtain ⟨t, ht, s, hs, rfl | rfl⟩ :=
        of_mem_twoSided (by unfold yearCombos at hx; exact hx)
      · have htg : goodName t := by
          have hall : ∀ t ∈ YEARS, goodName t := by decide
          exact hall t ht
        exact goodName_append (goodName_append hw (hsepgood s hs)) htg
      · have htg : goodName t := by
          have hall : ∀ t ∈ YEARS, goodName t := by decide
          exact hall t ht
        exact goodName_append (goodName_append htg (hsepgood s hs)) hw
    · obtain ⟨t, ht, s, hs, rfl | rfl⟩ :=
        of_mem_twoSided (by unfold shortYearCombos at hx; exact hx)
      · have htg : goodName t := by
          have hall : ∀ t ∈ SHORT_YEARS, goodName t := by decide
          exact hall t ht
        have hsg : goodName s := by
          have hall : ∀ s ∈ [("-"), ("")], goodName s := by decide
          exact hall s hs
        exact goodName_append (goodName_append hw hsg) htg
      · have htg : goodName t := by
          have hall : ∀ t ∈ SHORT_YEARS, goodName t := by decide
          exact hall t ht
        have hsg : goodName s := by
          have hall : ∀ s ∈ [("-"), ("")], goodName s := by decide
          exact hall s hs
        exact goodName_append (goodName_append htg hsg) hw
    · obtain ⟨t, ht, s, hs, rfl⟩ := of_mem_oneSided (by unfold numberCombos at hx; exact hx)
      have htg : goodName t := by
        have hall : ∀ t ∈ NUMBERS, goodName t := by decide
        exact hall t ht
      exact goodName_append (goodName_append hw (hsepgood s hs)) htg
    · obtain ⟨t, ht, s, hs, rfl | rfl⟩ :=
        of_mem_twoSided (by unfold regionCombos at hx; exact hx)
      · have htg : goodName t := by
          have hall : ∀ t ∈ REGIONS_SHORT, goodName t := by decide
          exact hall t ht
        have hsg : goodName s := by
          have hall : ∀ s ∈ [("-"), ("_"), ("")], goodName s := by decide
          exact hall s hs
        exact goodName_append (goodName_append hw hsg) htg
      · have htg : goodName t := by
          have hall : ∀ t ∈ REGIONS_SHORT, goodName t := by decide
          exact hall t ht
        have hsg : goodName s := by
          have hall : ∀ s ∈ [("-"), ("_"), ("")], goodName s := by decide
          exact hall s hs
        exact goodName_append (goodName_append htg hsg) hw
  · unfold level3Combos at hx
    rw [List.mem_append, List.mem_append, List.mem_append] at hx
    have hsg3 : ∀ s ∈ [("-"), ("_"), ("")], goodName s := by decide
    have hsg2 : ∀ s ∈ [("-"), ("_")], goodName s := by decide
    rcases hx with ((hx | hx) | hx) | hx
    · obtain ⟨t, ht, s, hs, rfl⟩ := of_mem_oneSided (by unfold suffixCombos at hx; exact hx)
      have htg : goodName t := by
        have hall : ∀ t ∈ COMMON_SUFFIXES, goodName t := by decide
        exact hall t ht
      exact goodName_append (goodName_append hw (hsg3 s hs)) htg
    · obtain ⟨t, ht, s, hs, rfl⟩ := of_mem_prefixCombos hx
      have htg : goodName t := by
        have hall : ∀ t ∈ COMMON_PREFIXES, goodName t := by decide
        exact hall t ht
      exact goodName_append (goodName_append htg (hsg3 s hs)) hw
    · obtain ⟨env, he, year, hy, sep, hs, rfl | rfl⟩ :=
        of_mem_pairCombos (by unfold envYearCombos at hx; exact hx)
      · have heg : goodName env := by
          have hall : ∀ e ∈ [("dev"), ("prod"), ("test"), ("staging")], goodName e := by decide
          exact hall env he
        have hyg : goodName year := by
          have hall : ∀ y ∈ [("2023"), ("2024"), ("2025")], goodName y := by decide
          exact hall year hy
        exact goodName_append (goodName_append (goodName_append
          (goodName_append hw (hsg2 sep hs)) heg) (hsg2 sep hs)) hyg
      · have heg : goodName env := by
          have hall : ∀ e ∈ [("dev"), ("prod"), ("test"), ("staging")], goodName e := by decide
          exact hall env he
        have hyg : goodName year := by
          have hall : ∀ y ∈ [("2023"), ("2024"), ("2025")], goodName y := by decide
          exact hall year hy
        exact goodName_append (goodName_append (goodName_append
          (goodName_append hw (hsg2 sep hs)) hyg) (hsg2 sep hs)) heg
    · obtain ⟨env, he, region, hr, sep, hs, rfl | rfl⟩ :=
        of_mem_pairCombos (by unfold envRegionCombos at hx; exact hx)
      · have heg : goodName env := by
          have hall : ∀ e ∈ [("dev"), ("prod"), ("staging"), ("test")], goodName e := by decide
          exact hall env he
        have hrg : goodName region := by
          have hall : ∀ r ∈ [("us"), ("eu"), ("ap")], goodName r := by decide
          exact hall region hr
        exact goodName_append (goodName_append (goodName_append
          (goodName_append hw (hsg2 sep hs)) heg) (hsg2 sep hs)) hrg
      · have heg : goodName env := by
          have hall : ∀ e ∈ [("dev"), ("prod"), ("staging"), ("test")], goodName e := by decide
          exact hall env he
        have hrg : goodName region := by
          have hall : ∀ r ∈ [("us"), ("eu"), ("ap")], goodName r := by decide
          exact hall region hr
        exact goodName_append (goodName_append (goodName_append
          (goodName_append hw (hsg2 sep hs)) hrg) (hsg2 sep hs)) heg

/-! ### Preservation of records through split_buckets_by_size -/

theorem empty_of_not_fileNonempty {fd : FileData} (hne : ¬ fileNonempty fd = true) :
    fd.publicB = [] ∧ fd.privateB = [] := by
  unfold fileNonempty at hne
  rw [Bool.not_eq_true, Bool.or_eq_false_iff, Bool.not_eq_false', Bool.not_eq_false'] at hne
  exact ⟨List.isEmpty_iff.mp hne.1, List.isEmpty_iff.mp hne.2⟩

theorem pubEntries_rotate (max_size : Nat) (acc : SplitAcc) :
    pubEntries (rotate_check max_size acc) = pubEntries acc := by
  unfold rotate_check pubEntries
  by_cases h : 20 * estimate_json_size acc.current > 19 * max_size
  · rw [if_pos h]
    by_cases hne : fileNonempty acc.current = true
    · rw [if_pos hne]
      simp [emptyFileData]
    · rw [if_neg hne]
      simp [emptyFileData, (empty_of_not_fileNonempty hne).1]
  · rw [if_neg h]

theorem privEntries_rotate (max_size : Nat) (acc : SplitAcc) :
    privEntries (rotate_check max_size acc) = privEntries acc := by
  unfold rotate_check privEntries
  by_cases h : 20 * estimate_json_size acc.current > 19 * max_size
  · rw [if_pos h]
    by_cases hne : fileNonempty acc.current = true
    · rw [if_pos hne]
      simp [emptyFileData]
    · rw [if_neg hne]
      simp [emptyFileData, (empty_of_not_fileNonempty hne).2]
  · rw [if_neg h]

theorem add_public_pubEntries (ci ms : Nat) (acc : SplitAcc) (b : RecordDict) :
    pubEntries (add_public_bucket ci ms acc b) = pubEntries acc ++ [b] := by
  unfold add_public_bucket
  by_cases h : (acc.bucket_count + 1) % ci = 0
  · rw [if_pos h, pubEntries_rotate]
    unfold pubEntries
    simp [List.append_assoc]
  · rw [if_neg h]
    unfold pubEntries
    simp [List.append_assoc]

theorem add_public_privEntries (ci ms : Nat) (acc : SplitAcc) (b : RecordDict) :
    privEntries (add_public_bucket ci ms acc b) = privEntries acc := by
  unfold add_public_bucket
  by_cases h : (acc.bucket_count + 1) % ci = 0
  · rw [if_pos h, privEntries_rotate]
    rfl
  · rw [if_neg h]
    rfl

theorem add_private_pubEntries (ci ms : Nat) (acc : SplitAcc) (b : RecordDict) :
    pubEntries (add_private_bucket ci ms acc b) = pubEntries acc := by
  unfold add_private_bucket
  by_cases h : (acc.bucket_count + 1) % ci = 0
  · rw [if_pos h, pubEntries_rotate]
    rfl
  · rw [if_neg h]
    rfl

theorem add_private_privEntries (ci ms : Nat) (acc : SplitAcc) (b : RecordDict) :
    privEntries (add_private_bucket ci ms acc b) = privEntries acc ++ [b] := by
  unfold add_private_bucket
  by_cases h : (acc.bucket_count + 1) % ci = 0
  · rw [if_pos h, privEntries_rotate]
    unfold privEntries
    simp [List.append_assoc]
  · rw [if_neg h]
    unfold privEntries
    simp [List.append_assoc]

theorem foldl_add_public_entries (ci ms : Nat) (l : List RecordDict) :
    ∀ acc : SplitAcc,
      pubEntries (l.foldl (add_public_bucket ci ms) acc) = pubEntries acc ++ l ∧
      privEntries (l.foldl (add_public_bucket ci ms) acc) = privEntries acc := by
  induction l with
  | nil =>
    intro acc
    simp
  | cons b t ih =>
    intro acc
    rw [List.foldl_cons]
    obtain ⟨h1, h2⟩ := ih (add_public_bucket ci ms acc b)
    rw [h1, h2, add_public_pubEntries, add_public_privEntries]
    simp

theorem foldl_add_private_entries (ci ms : Nat) (l : List RecordDict) :
    ∀ acc : SplitAcc,
      pubEntries (l.foldl (add_private_bucket ci ms) acc) = pubEntries acc ∧
      privEntries (l.foldl (add_private_bucket ci ms) acc) = privEntries acc ++ l := by
  induction l with
  | nil =>
    intro acc
    simp
  | cons b t ih =>
    intro acc
    rw [List.foldl_cons]
    obtain ⟨h1, h2⟩ := ih (add_private_bucket ci ms acc b)
    rw [h1, h2, add_private_pubEntries, add_private_privEntries]
    simp

theorem split_entries (pub priv : List RecordDict) (max_size : Nat) :
    ((split_buckets_by_size pub priv max_size).map FileData.publicB).flatten = pub ∧
    ((split_buckets_by_size pub priv max_size).map FileData.privateB).flatten = priv := by
  obtain ⟨hp1, hv1⟩ := foldl_add_public_entries (max 1 (max_size / (250 * 100))) max_size pub
    { files_data := [], current := emptyFileData, bucket_count := 0 }
  obtain ⟨hp2, hv2⟩ := foldl_add_private_entries (max 1 (max_size / (250 * 100))) max_size priv
    { (pub.foldl (add_public_bucket (max 1 (max_size / (250 * 100))) max_size)
        { files_data := [], current := emptyFileData, bucket_count := 0 }) with
      bucket_count := 0 }
  set X := pub.foldl (add_public_bucket (max 1 (max_size / (250 * 100))) max_size)
      { files_data := [], current := emptyFileData, bucket_count := 0 } with hX
  set A := priv.foldl (add_private_bucket (max 1 (max_size / (250 * 100))) max_size)
      { X with bucket_count := 0 } with hA
  have hforgetP : pubEntries { X with bucket_count := 0 } = pubEntries X := rfl
  have hforgetV : privEntries { X with bucket_count := 0 } = privEntries X := rfl
  have hbaseP : pubEntries
      { files_data := ([] : List FileData), current := emptyFileData, bucket_count := 0 } =
      [] := rfl
  have hbaseV : privEntries
      { files_data := ([] : List FileData), current := emptyFileData, bucket_count := 0 } =
      [] := rfl
  have hP : pubEntries A = pub := by
    rw [hp2, hforgetP, hp1, hbaseP]
    simp
  have hV : privEntries A = priv := by
    rw [hv2, hforgetV, hv1, hbaseV]
    simp
  have hsplit : split_buckets_by_size pub priv max_size =
      if fileNonempty A.current then A.files_data ++ [A.current] else A.files_data := by
    rw [hA, hX]
    rfl
  rw [hsplit]
  by_cases hne : fileNonempty A.current = true
  · rw [if_pos hne]
    constructor
    · have hgoal : ((A.files_data ++ [A.current]).map FileData.publicB).flatten =
          pubEntries A := by
        unfold pubEntries
        simp
      rw [hgoal, hP]
    · have hgoal : ((A.files_data ++ [A.current]).map FileData.privateB).flatten =
          privEntries A := by
        unfold privEntries
        simp
      rw [hgoal, hV]
  · rw [if_neg hne]
    obtain ⟨he1, he2⟩ := empty_of_not_fileNonempty hne
    constructor
    · have hgoal : (A.files_data.map FileData.publicB).flatten = pubEntries A := by
        unfold pubEntries
        rw [he1]
        simp
      rw [hgoal, hP]
    · have hgoal : (A.files_data.map FileData.privateB).flatten = privEntries A := by
        unfold privEntries
        rw [he2]
        simp
      rw [hgoal, hV]

/-! ### Result recording invariants (scan_bucket) -/

theorem record_fold_snd_public_only (outcomes : List (Option ProbeResult)) :
    ∀ acc : List ProbeResult × List ProbeResult,
      (outcomes.foldl (record_result true) acc).2 = acc.2 := by
  induction outcomes with
  | nil =>
    intro acc
    rfl
  | cons o t ih =>
    intro acc
    rw [List.foldl_cons, ih]
    cases o with
    | none => rfl
    | some r =>
      simp only [record_result]
      by_cases hr : r.access = ("public") ∨ r.access = ("accessible")
      · rw [if_pos hr]
      · rw [if_neg hr, if_neg (by simp : ¬(true = false))]

theorem record_fold_fst_access (public_only : Bool) (outcomes : List (Option ProbeResult)) :
    ∀ acc : List ProbeResult × List ProbeResult,
      (∀ r ∈ acc.1, r.access = ("public") ∨ r.access = ("accessible")) →
      ∀ r ∈ (outcomes.foldl (record_result public_only) acc).1,
        r.access = ("public") ∨ r.access = ("accessible") := by
  induction outcomes with
  | nil =>
    intro acc hacc
    exact hacc
  | cons o t ih =>
    intro acc hacc
    rw [List.foldl_cons]
    apply ih
    cases o with
    | none => exact hacc
    | some r =>
      simp only [record_result]
      by_cases hr : r.access = ("public") ∨ r.access = ("accessible")
      · rw [if_pos hr]
        intro r' hr'
        simp only [List.mem_append, List.mem_singleton] at hr'
        rcases hr' with hr' | hr'
        · exact hacc r' hr'
        · subst hr'
          exact hr
      · rw [if_neg hr]
        by_cases hpo : public_only = false
        · rw [if_pos hpo]
          exact hacc
        · rw [if_neg hpo]
          exact hacc

theorem record_fold_snd_mono (public_only : Bool) (outcomes : List (Option ProbeResult)) :
    ∀ acc : List ProbeResult × List ProbeResult, ∀ r ∈ acc.2,
      r ∈ (outcomes.foldl (record_result public_only) acc).2 := by
  induction outcomes with
  | nil =>
    intro acc r hr
    exact hr
  | cons o t ih =>
    intro acc r hr
    rw [List.foldl_cons]
    apply ih
    cases o with
    | none => exact hr
    | some r' =>
      simp only [record_result]
      by_cases hr' : r'.access = ("public") ∨ r'.access = ("accessible")
      · rw [if_pos hr']
        exact hr
      · rw [if_neg hr']
        by_cases hpo : public_only = false
        · rw [if_pos hpo]
          exact List.mem_append_left _ hr
        · rw [if_neg hpo]
          exact hr

theorem record_fold_snd_complete (outcomes : List (Option ProbeResult)) :
    ∀ (acc : List ProbeResult × List ProbeResult) (r : ProbeResult),
      some r ∈ outcomes → ¬(r.access = ("public") ∨ r.access = ("accessible")) →
      r ∈ (outcomes.foldl (record_result false) acc).2 := by
  induction outcomes with
  | nil =>
    intro acc r hmem hr
    cases hmem
  | cons o t ih =>
    intro acc r hmem hr
    rw [List.foldl_cons]
    rw [List.mem_cons] at hmem
    rcases hmem with hmem | hmem
    · subst hmem
      apply record_fold_snd_mono
      simp only [record_result]
      rw [if_neg hr, if_pos trivial]
      exact List.mem_append_right _ (List.mem_singleton.mpr rfl)
    · exact ih _ r hmem hr

/-! ### Dictionary lemmas for URL deduplication (merge stage) -/

theorem lookup_pair_cons {α : Type} (q k : String) (b : α) (l : List (String × α)) :
    List.lookup q ((k, b) :: l) = if q = k then some b else List.lookup q l := by
  simp only [List.lookup]
  cases h : q == k
  · rw [if_neg (ne_of_beq_false h)]
  · rw [if_pos (by exact eq_of_beq h)]

theorem lookup_dict_insert (m : List (String × RecordDict)) (k : String) (v : RecordDict)
    (q : String) :
    List.lookup q (dict_insert m k v) = if q = k then some v else List.lookup q m := by
  induction m with
  | nil =>
    unfold dict_insert
    rw [lookup_pair_cons]
  | cons kv rest ih =>
    obtain ⟨a, b⟩ := kv
    simp only [dict_insert]
    by_cases ha : a = k
    · rw [if_pos (by simpa using ha)]
      rw [lookup_pair_cons, lookup_pair_cons]
      by_cases hq : q = k
      · rw [if_pos hq, if_pos hq]
      · rw [if_neg hq, if_neg hq, if_neg (by rw [← ha] at hq; exact hq)]
    · rw [if_neg (by simpa using ha)]
      rw [lookup_pair_cons, lookup_pair_cons, ih]
      by_cases hq : q = a
      · rw [if_pos hq, if_pos hq, if_neg (by rw [hq]; exact ha)]
      · rw [if_neg hq, if_neg hq]

theorem keys_dict_insert (m : List (String × RecordDict)) (k : String) (v : RecordDict) :
    (dict_insert m k v).map Prod.fst =
      if k ∈ m.map Prod.fst then m.map Prod.fst else m.map Prod.fst ++ [k] := by
  induction m with
  | nil =>
    unfold dict_insert
    simp
  | cons kv rest ih =>
    obtain ⟨a, b⟩ := kv
    simp only [dict_insert]
    by_cases ha : a = k
    · rw [if_pos (by simpa using ha)]
      subst ha
      simp
    · rw [if_neg (by simpa using ha)]
      have hmemiff : (k ∈ ((a, b) :: rest).map Prod.fst) ↔ k ∈ rest.map Prod.fst := by
        rw [List.map_cons]
        simp only [List.mem_cons]
        constructor
        · rintro (h | h)
          · exact absurd h.symm ha
          · exact h
        · exact fun h => Or.inr h
      by_cases hk : k ∈ rest.map Prod.fst
      · rw [if_pos (hmemiff.mpr hk)]
        rw [List.map_cons, List.map_cons, ih, if_pos hk]
      · rw [if_neg (fun hc => hk (hmemiff.mp hc))]
        rw [List.map_cons, List.map_cons, ih, if_neg hk, List.cons_append]

theorem mem_dict_insert {m : List (String × RecordDict)} {k : String} {v : RecordDict}
    {p : String × RecordDict} (hp : p ∈ dict_insert m k v) : p = (k, v) ∨ p ∈ m := by
  induction m with
  | nil =>
    unfold dict_insert at hp
    rw [List.mem_singleton] at hp
    exact Or.inl hp
  | cons kv rest ih =>
    obtain ⟨a, b⟩ := kv
    simp only [dict_insert] at hp
    by_cases ha : a = k
    · rw [if_pos (by simpa using ha)] at hp
      rw [List.mem_cons] at hp
      rcases hp with hp | hp
      · exact Or.inl hp
      · exact Or.inr (List.mem_cons_of_mem _ hp)
    · rw [if_neg (by simpa using ha)] at hp
      rw [List.mem_cons] at hp
      rcases hp with hp | hp
      · exact Or.inr (List.mem_cons.mpr (Or.inl hp))
      · rcases ih hp with h | h
        · exact Or.inl h
        · exact Or.inr (List.mem_cons_of_mem _ h)

theorem nodup_keys_dict_insert {m : List (String × RecordDict)} {k : String} {v : RecordDict}
    (hm : (m.map Prod.fst).Nodup) : ((dict_insert m k v).map Prod.fst).Nodup := by
  rw [keys_dict_insert]
  by_cases hk : k ∈ m.map Prod.fst
  · rw [if_pos hk]
    exact hm
  · rw [if_neg hk]
    rw [List.nodup_append]
    exact ⟨hm, List.nodup_singleton k, by simpa using hk⟩

theorem getLast?_cons_or {α : Type} (a : α) (l : List α) :
    (a :: l).getLast? = Option.or l.getLast? (some a) := by
  cases l with
  | nil => rfl
  | cons b t =>
    rw [List.getLast?_cons_cons]
    cases h : (b :: t).getLast? with
    | none => simp [List.getLast?] at h
    | some v => simp [Option.or]

theorem unique_fold_keys_nodup (l : List RecordDict) :
    ∀ m : List (String × RecordDict), (m.map Prod.fst).Nodup →
      ((l.foldl (fun unique bucket =>
        let url := dictGet bucket ("url") ("")
        if url ≠ ("") then dict_insert unique url bucket else unique) m).map Prod.fst).Nodup := by
  induction l with
  | nil =>
    intro m hm
    exact hm
  | cons b t ih =>
    intro m hm
    rw [List.foldl_cons]
    apply ih
    by_cases hu : dictGet b ("url") ("") ≠ ("")
    · rw [if_pos hu]
      exact nodup_keys_dict_insert hm
    · rw [if_neg hu]
      exact hm

theorem unique_fold_mem (l : List RecordDict) :
    ∀ (m : List (String × RecordDict)) (p : String × RecordDict),
      p ∈ l.foldl (fun unique bucket =>
        let url := dictGet bucket ("url") ("")
        if url ≠ ("") then dict_insert unique url bucket else unique) m →
      p ∈ m ∨ (p.1 ≠ ("") ∧ dictGet p.2 ("url") ("") = p.1) := by
  induction l with
  | nil =>
    intro m p hp
    exact Or.inl hp
  | cons b t ih =>
    intro m p hp
    rw [List.foldl_cons] at hp
    rcases ih _ p hp with hp' | hp'
    · by_cases hu : dictGet b ("url") ("") ≠ ("")
      · rw [if_pos hu] at hp'
        rcases mem_dict_insert hp' with h | h
        · subst h
          exact Or.inr ⟨hu, rfl⟩
        · exact Or.inl h
      · rw [if_neg hu] at hp'
        exact Or.inl hp'
    · exact Or.inr hp'

theorem unique_fold_lookup (u : String) (hu : u ≠ ("")) (l : List RecordDict) :
    ∀ m : List (String × RecordDict),
      List.lookup u (l.foldl (fun unique bucket =>
        let url := dictGet bucket ("url") ("")
        if url ≠ ("") then dict_insert unique url bucket else unique) m) =
      Option.or ((l.filter (fun b => dictGet b ("url") ("") = u)).getLast?) (List.lookup u m) := by
  induction l with
  | nil =>
    intro m
    rfl
  | cons b t ih =>
    intro m
    rw [List.foldl_cons]
    by_cases hb : dictGet b ("url") ("") = u
    · have hbne : dictGet b ("url") ("") ≠ ("") := by
        rw [hb]
        exact hu
      rw [List.filter_cons_of_pos (by simpa using hb)]
      rw [if_pos hbne, ih, lookup_dict_insert, if_pos hb.symm, getLast?_cons_or,
        Option.or_assoc, Option.or_some]
    · rw [List.filter_cons_of_neg (by simpa using hb)]
      by_cases hbne : dictGet b ("url") ("") ≠ ("")
      · rw [if_pos hbne, ih, lookup_dict_insert, if_neg (fun he => hb he.symm)]
      · rw [if_neg hbne, ih]

/-! ### Claim theorems -/

/-- Claim C1 counterexample: contrary to the claim, the empty-separator name
`acmedev` is not generated for wordlist `["acme"]` and environments
`["dev", "prod"]` at level 1, because the guard `if sep or not env:` rejects
the empty separator whenever the environment tag is non-empty. -/
theorem C1_counterexample_empty_sep_missing :
    ("acmedev") ∉ generate_bucket_names [("dev"), ("prod")] 1 [("acme")] := by
  decide

/-- Claim C1 (amended): for wordlist `["acme"]` and environments
`["dev", "prod"]` at level 1, the generated set is exactly the base word
together with `acme+s+e` and `e+s+acme` for every environment tag
`e ∈ {dev, prod}` and every separator `s ∈ {"-", "_", "."}`; the
empty-separator combinations are not produced. -/
theorem C1_generate_acme_level1_enumeration :
    generate_bucket_names [("dev"), ("prod")] 1 [("acme")] =
      {("acme"), ("acme-dev"), ("dev-acme"), ("acme_dev"), ("dev_acme"), ("acme.dev"),
       ("dev.acme"), ("acme-prod"), ("prod-acme"), ("acme_prod"), ("prod_acme"),
       ("acme.prod"), ("prod.acme")} := by
  decide

/-- Claim C2 (amended): for any input lists and any cap, the concatenation of
the emitted files' public entries is exactly the input public list and
likewise for the private entries — no record is lost and none is duplicated.
The claimed size bound `≤ cap × 1.1` does not hold in general (see the
counterexample), because the rotation check runs only after appending and
only periodically. -/
theorem C2_split_preserves_records (public_buckets private_buckets : List RecordDict)
    (max_size : Nat) :
    ((split_buckets_by_size public_buckets private_buckets max_size).map
      FileData.publicB).flatten = public_buckets ∧
    ((split_buckets_by_size public_buckets private_buckets max_size).map
      FileData.privateB).flatten = private_buckets :=
  split_entries public_buckets private_buckets max_size

set_option maxRecDepth 8192 in
/-- Claim C2 counterexample: with cap 100 bytes and a single record holding a
200-character url, `split_buckets_by_size` emits a file whose serialized size
(297 bytes) exceeds cap × 1.1 = 110, refuting the claimed bound. -/
theorem C2_counterexample_size_bound :
    ∃ fd ∈ split_buckets_by_size [[(("url"), String.mk (List.replicate 200 ('a')))]] [] 100,
      10 * estimate_json_size fd > 11 * 100 := by
  decide

/-- Claim C3 counterexample: for the word `*`, which normalizes to the empty
string and is skipped, the generated sets at levels 0 and 1 are both empty,
so the inclusion between consecutive levels is not strict for every word. -/
theorem C3_counterexample_star_word :
    ¬ (generate_bucket_names DEFAULT_ENVIRONMENTS 0 [("*")] ⊂
        generate_bucket_names DEFAULT_ENVIRONMENTS 1 [("*")]) := by
  decide

/-- Claim C3 (amended): for every word `w` and levels `L1 < L2 ≤ 3`, the
candidate set of `[w]` at `L1` is a subset of the one at `L2`, and the
inclusion is strict whenever `w` is non-empty after normalization (words that
normalize to the empty string yield the empty set at every level). -/
theorem C3_generate_levels_monotone (w : String) (L1 L2 : Nat) (h12 : L1 < L2)
    (h3 : L2 ≤ 3) :
    generate_bucket_names DEFAULT_ENVIRONMENTS L1 [w] ⊆
      generate_bucket_names DEFAULT_ENVIRONMENTS L2 [w] ∧
    (normalizeWord w ≠ ("") →
      generate_bucket_names DEFAULT_ENVIRONMENTS L1 [w] ⊂
        generate_bucket_names DEFAULT_ENVIRONMENTS L2 [w]) := by
  have hsub : generate_bucket_names DEFAULT_ENVIRONMENTS L1 [w] ⊆
      generate_bucket_names DEFAULT_ENVIRONMENTS L2 [w] :=
    generate_mono DEFAULT_ENVIRONMENTS (le_of_lt h12) [w]
  refine ⟨hsub, fun hnw => ?_⟩
  rw [Finset.ssubset_iff_of_subset hsub]
  have hL1 : L1 ≤ 2 := by omega
  interval_cases L1
  · refine ⟨normalizeWord w ++ ("-dev"), ?_, ?_⟩
    · rw [mem_generate_singleton]
      exact ⟨hnw, dev_mem_namesForWord (by omega) (normalizeWord w)⟩
    · rw [mem_generate_singleton]
      rintro ⟨-, hmem⟩
      rw [mem_namesForWord_iff] at hmem
      rcases hmem with heq | ⟨hz, -⟩
      · have hlen := congrArg String.length heq
        rw [String.length_append] at hlen
        have h4 : (("-dev") : String).length = 4 := rfl
        omega
      · exact hz rfl
  · refine ⟨normalizeWord w ++ ("2020"), ?_, ?_⟩
    · rw [mem_generate_singleton]
      exact ⟨hnw, year2020_mem_namesForWord (by omega) (normalizeWord w)⟩
    · rw [mem_generate_singleton]
      rintro ⟨-, hmem⟩
      have hb := count_two_namesForWord_level1 hmem
      rw [count_append_str] at hb
      have h2020 : (("2020") : String).data.count ('2') = 2 := by decide
      omega
  · refine ⟨normalizeWord w ++ ("-dev-2023"), ?_, ?_⟩
    · rw [mem_generate_singleton]
      exact ⟨hnw, devYear_mem_namesForWord (by omega) (normalizeWord w)⟩
    · rw [mem_generate_singleton]
      rintro ⟨-, hmem⟩
      have hb := count_dash_namesForWord_level2 hmem
      rw [count_append_str] at hb
      have hcnt : (("-dev-2023") : String).data.count ('-') = 2 := by decide
      omega

/-- Claim C3 witness: the amended theorem instantiated at the word `acme`
and levels 1 < 2. -/
theorem C3_generate_levels_monotone_witness :
    generate_bucket_names DEFAULT_ENVIRONMENTS 1 [("acme")] ⊆
      generate_bucket_names DEFAULT_ENVIRONMENTS 2 [("acme")] ∧
    (normalizeWord ("acme") ≠ ("") →
      generate_bucket_names DEFAULT_ENVIRONMENTS 1 [("acme")] ⊂
        generate_bucket_names DEFAULT_ENVIRONMENTS 2 [("acme")]) :=
  C3_generate_levels_monotone ("acme") 1 2 (by decide) (by decide)

/-- Claim C4: the probe targets dispatched by `run_chunk` — the product of the
deduplicated candidate-name list produced by `generate_bucket_names` with the
fixed region table — contain no repeated (name, region) pair, so each pair is
submitted to `check_bucket` at most once per chunk. -/
theorem C4_probe_targets_nodup (environments : List String) (permutation_level : Nat)
    (words : List String) :
    (run_chunk_combinations
      (generate_bucket_names environments permutation_level words).toList).Nodup := by
  unfold run_chunk_combinations
  exact List.Nodup.product (Finset.nodup_toList _) (by decide)

/-- Claim C5: the access classification of `determine_access` agrees, on every
GET outcome, with the claim's case table (public for 200 with a listing
marker, accessible for 200 without, private for 403, exists for 301/302/307,
unknown otherwise, private on a network exception). -/
theorem C5_determine_access_matches_claim (get : String → GetOutcome) (url : String) :
    determine_access get url = determine_access_claim get url := by
  unfold determine_access determine_access_claim
  cases get url with
  | err => rfl
  | ok status body =>
    by_cases h200 : status = 200
    · by_cases hm : (containsSub ("<?xml") body || containsSub ("ListBucketResult") body) = true
      · simp [h200, hm]
      · simp [h200, hm]
    · by_cases h403 : status = 403
      · simp [h200, h403]
      · by_cases h3xx : status = 301 ∨ status = 302 ∨ status = 307
        · have hmem : status ∈ [301, 302, 307] := by simpa using h3xx
          simp [h200, h403, h3xx, hmem]
        · have hmem : status ∉ [301, 302, 307] := by simpa using h3xx
          simp [h200, h403, h3xx, hmem]

set_option maxRecDepth 8192 in
/-- Claim C6 counterexample: with a configured environment list `["DEV"]`
(loaded entries are only stripped, never lowercased) and the input word
`a<TAB>b`, the generated name `a<TAB>b-DEV` contains an uppercase letter and
a whitespace character (the normalization replaces only the space character,
not other whitespace). -/
theorem C6_counterexample_env_uppercase_and_tab :
    ∃ name ∈ generate_bucket_names [("DEV")] 1 [("a\tb")],
      (∃ c ∈ name.data, Char.isUpper c) ∧ (∃ c ∈ name.data, c.isWhitespace) := by
  decide

/-- Claim C6 (amended): with the built-in default environment list, every
candidate name produced by `generate_bucket_names`, for any input words and
level, contains no space character, no `*`, and no ASCII uppercase letter.
With arbitrary environment files the property fails (entries are not
normalized), and whitespace other than the space character survives
normalization of the input words. -/
theorem C6_generated_names_good (permutation_level : Nat) (words : List String)
    (name : String)
    (hname : name ∈ generate_bucket_names DEFAULT_ENVIRONMENTS permutation_level words) :
    ∀ c ∈ name.data, c ≠ (' ') ∧ c ≠ ('*') ∧ ¬ isAsciiUpper c := by
  rw [mem_generate] at hname
  obtain ⟨w, -, -, hx⟩ := hname
  exact goodName_namesForWord (goodName_normalize w) (by decide) hx

set_option maxRecDepth 8192 in
/-- Claim C6 witness: the amended theorem evaluated on the generated name
`acme-dev` at level 1 for the word `acme`. -/
theorem C6_generated_names_good_witness : goodName (("acme-dev")) :=
  C6_generated_names_good 1 [("acme")] ("acme-dev") (by decide)

/-- Claim C7: when the loaded domain state contains the hash of every
wordlist entry, a run below the maximum permutation level advances the level
by exactly one, records `permutation_level_completed` as the original level
and increments `additional_rounds` in the state file, and treats the whole
wordlist as pending again; at the maximum level it finishes with no further
work. -/
theorem C7_escalation_step (h : String → String) (all_words : List String)
    (permutation_level : Nat) (state : DomainStateFile)
    (hall : ∀ w ∈ all_words, h w ∈ state.scanned_domains) :
    (permutation_level < 3 →
      plan_after_load h all_words permutation_level state =
        RunPlan.work all_words (permutation_level + 1)
          { state with
            permutation_level_completed := some permutation_level,
            additional_rounds := some (state.additional_rounds.getD 0 + 1) }) ∧
    (¬ permutation_level < 3 →
      plan_after_load h all_words permutation_level state = RunPlan.finished) := by
  have hrem : all_words.filter (fun w => h w ∉ state.scanned_domains) = [] := by
    rw [List.filter_eq_nil_iff]
    intro w hw
    simpa using hall w hw
  unfold plan_after_load
  rw [hrem]
  constructor
  · intro hlt
    simp [hlt]
  · intro hge
    simp [hge]

/-- Claim C7 witness: the escalation theorem evaluated at a one-word list
whose hash is recorded as scanned, at level 1. -/
theorem C7_escalation_step_witness :
    plan_after_load (fun _ => ("h1")) [("acme")] 1
      { scanned_domains := [("h1")], permutation_level_completed := none,
        additional_rounds := none } =
      RunPlan.work [("acme")] 2
        { scanned_domains := [("h1")], permutation_level_completed := some 1,
          additional_rounds := some 1 } :=
  (C7_escalation_step (fun _ => ("h1")) [("acme")] 1
    { scanned_domains := [("h1")], permutation_level_completed := none,
      additional_rounds := none } (by decide)).1 (by decide)

theorem check_bucket_loop_err {head : String → HeadOutcome} {get : String → GetOutcome}
    {now bucket_name region url : String} {rest : List String}
    (h : head url = HeadOutcome.err) :
    check_bucket_loop head get now bucket_name region (url :: rest) =
      check_bucket_loop head get now bucket_name region rest := by
  simp only [check_bucket_loop, h]

theorem check_bucket_loop_ok {head : String → HeadOutcome} {get : String → GetOutcome}
    {now bucket_name region url : String} {rest : List String} {st : Nat}
    (h : head url = HeadOutcome.ok st) :
    check_bucket_loop head get now bucket_name region (url :: rest) =
      if st = 200 ∨ st = 301 ∨ st = 302 ∨ st = 307 then
        some { url := url, bucket := bucket_name, region := region, status := st,
               access := determine_access get url, timestamp := now }
      else check_bucket_loop head get now bucket_name region rest := by
  simp only [check_bucket_loop, h]

/-- Claim C8: a HEAD exception (timeout or connection error) on the first URL
shape makes `check_bucket` proceed to the second shape, and when neither URL
shape yields a status in {200, 301, 302, 307} — each HEAD either raising or
returning a non-qualifying status — `check_bucket` returns `none` instead of
propagating a failure. -/
theorem C8_check_bucket_transient (head : String → HeadOutcome) (get : String → GetOutcome)
    (now bucket_name region : String) :
    (head (("https://") ++ bucket_name ++ (".s3.") ++ region ++ (".amazonaws.com")) =
        HeadOutcome.err →
      check_bucket head get now bucket_name region =
        check_bucket_loop head get now bucket_name region
          [(("https://s3.") ++ region ++ (".amazonaws.com/") ++ bucket_name)]) ∧
    ((∀ url ∈ bucketUrls bucket_name region,
        head url = HeadOutcome.err ∨
          ∀ status, head url = HeadOutcome.ok status →
            ¬(status = 200 ∨ status = 301 ∨ status = 302 ∨ status = 307)) →
      check_bucket head get now bucket_name region = none) := by
  constructor
  · intro herr
    unfold check_bucket bucketUrls
    exact check_bucket_loop_err herr
  · intro hfail
    have h1 := hfail (("https://") ++ bucket_name ++ (".s3.") ++ region ++ (".amazonaws.com"))
      (List.mem_cons_self _ _)
    have h2 := hfail (("https://s3.") ++ region ++ (".amazonaws.com/") ++ bucket_name)
      (List.mem_cons_of_mem _ (List.mem_cons_self _ _))
    unfold check_bucket bucketUrls
    cases hh1 : head (("https://") ++ bucket_name ++ (".s3.") ++ region ++ (".amazonaws.com"))
      with
    | err =>
      rw [check_bucket_loop_err hh1]
      cases hh2 : head (("https://s3.") ++ region ++ (".amazonaws.com/") ++ bucket_name) with
      | err =>
        rw [check_bucket_loop_err hh2]
        rfl
      | ok st2 =>
        rcases h2 with h2 | h2
        · rw [h2] at hh2
          cases hh2
        · rw [check_bucket_loop_ok hh2, if_neg (h2 st2 hh2)]
          rfl
    | ok st1 =>
      rcases h1 with h1 | h1
      · rw [h1] at hh1
        cases hh1
      · rw [check_bucket_loop_ok hh1, if_neg (h1 st1 hh1)]
        cases hh2 : head (("https://s3.") ++ region ++ (".amazonaws.com/") ++ bucket_name) with
        | err =>
          rw [check_bucket_loop_err hh2]
          rfl
        | ok st2 =>
          rcases h2 with h2 | h2
          · rw [h2] at hh2
            cases hh2
          · rw [check_bucket_loop_ok hh2, if_neg (h2 st2 hh2)]
            rfl

/-- Claim C8 witness: with a HEAD oracle that always raises, `check_bucket`
returns `none`. -/
theorem C8_check_bucket_transient_witness :
    check_bucket (fun _ => HeadOutcome.err) (fun _ => GetOutcome.err) ("t") ("acme")
      ("us-east-1") = none :=
  (C8_check_bucket_transient (fun _ => HeadOutcome.err) (fun _ => GetOutcome.err) ("t")
    ("acme") ("us-east-1")).2 (fun _ _ => Or.inl rfl)

/-- Claim C9: in the accumulated per-chunk results, every record in the
public list has access `public` or `accessible`; with the public-only flag
off, every found record with any other classification is put in the private
list; and with the flag on, the private list stays empty for the whole run. -/
theorem C9_result_lists_classification (public_only : Bool)
    (outcomes : List (Option ProbeResult)) :
    (∀ r ∈ (chunk_results public_only outcomes).1,
      r.access = ("public") ∨ r.access = ("accessible")) ∧
    (public_only = false → ∀ r : ProbeResult, some r ∈ outcomes →
      ¬(r.access = ("public") ∨ r.access = ("accessible")) →
      r ∈ (chunk_results public_only outcomes).2) ∧
    (public_only = true → (chunk_results public_only outcomes).2 = []) := by
  refine ⟨?_, ?_, ?_⟩
  · exact record_fold_fst_access public_only outcomes ([], []) (by intro r hr; cases hr)
  · intro hpo r hmem hr
    subst hpo
    exact record_fold_snd_complete outcomes ([], []) r hmem hr
  · intro hpo
    subst hpo
    exact record_fold_snd_public_only outcomes ([], [])

/-- Claim C9 witness: a found record classified `private` lands in the
private result list when the public-only flag is off. -/
theorem C9_result_lists_classification_witness :
    samplePrivateResult ∈ (chunk_results false [some samplePrivateResult]).2 :=
  (C9_result_lists_classification false _).2.1 rfl _ (List.mem_singleton.mpr rfl) (by decide)

/-- Claim C10: merge-stage deduplication, over the concatenation
existing-then-new for each pool independently, keeps for each distinct
non-empty URL exactly one record — the last occurrence — and drops every
record whose `url` field is missing or empty: the kept key set has no
duplicates, looking up a non-empty URL returns the last matching input
record, and every kept entry is keyed by its own non-empty URL. -/
theorem C10_merge_dedupe_by_url (existing_public new_public existing_private new_private :
    List RecordDict) :
    (((merge_dedupe existing_public new_public existing_private new_private).1.map
        Prod.fst).Nodup ∧
      ((merge_dedupe existing_public new_public existing_private new_private).2.map
        Prod.fst).Nodup) ∧
    (∀ u : String, u ≠ ("") →
      List.lookup u (merge_dedupe existing_public new_public existing_private
          new_private).1 =
        ((existing_public ++ new_public).filter
          (fun b => dictGet b ("url") ("") = u)).getLast? ∧
      List.lookup u (merge_dedupe existing_public new_public existing_private
          new_private).2 =
        ((existing_private ++ new_private).filter
          (fun b => dictGet b ("url") ("") = u)).getLast?) ∧
    (∀ p ∈ (merge_dedupe existing_public new_public existing_private new_private).1,
      p.1 ≠ ("") ∧ dictGet p.2 ("url") ("") = p.1) ∧
    (∀ p ∈ (merge_dedupe existing_public new_public existing_private new_private).2,
      p.1 ≠ ("") ∧ dictGet p.2 ("url") ("") = p.1) := by
  refine ⟨⟨?_, ?_⟩, ?_, ?_, ?_⟩
  · exact unique_fold_keys_nodup (existing_public ++ new_public) [] (by simp)
  · exact unique_fold_keys_nodup (existing_private ++ new_private) [] (by simp)
  · intro u hu
    constructor
    · rw [show (merge_dedupe existing_public new_public existing_private new_private).1 =
          unique_by_url (existing_public ++ new_public) from rfl]
      unfold unique_by_url
      rw [unique_fold_lookup u hu]
      exact Option.or_none
    · rw [show (merge_dedupe existing_public new_public existing_private new_private).2 =
          unique_by_url (existing_private ++ new_private) from rfl]
      unfold unique_by_url
      rw [unique_fold_lookup u hu]
      exact Option.or_none
  · intro p hp
    rcases unique_fold_mem (existing_public ++ new_public) [] p hp with h | h
    · cases h
    · exact h
  · intro p hp
    rcases unique_fold_mem (existing_private ++ new_private) [] p hp with h | h
    · cases h
    · exact h

/-- Claim C10 witness: with two records sharing url `u1` (one in the existing
pool, one in the new pool) and a record with no url field, the merge keeps
exactly the later `u1` record. -/
theorem C10_merge_dedupe_by_url_witness :
    List.lookup ("u1") (merge_dedupe [[(("url"), ("u1")), (("x"), ("old"))]]
      [[(("url"), ("u1")), (("x"), ("new"))], [(("y"), ("z"))]] [] []).1 =
      some [(("url"), ("u1")), (("x"), ("new"))] := by
  have h := (C10_merge_dedupe_by_url [[(("url"), ("u1")), (("x"), ("old"))]]
    [[(("url"), ("u1")), (("x"), ("new"))], [(("y"), ("z"))]] [] []).2.1 ("u1") (by decide)
  rw [h.1]
  decide

end S3Hunter
